import Mathlib

/-!
Verification development for the WhatsApp expense tracker (src/app.py).

The development shallowly embeds the webhook message handler
(`whatsapp_webhook`), the stats aggregation (`calculate_stats`) and the
category-resolution map that the handler builds while a session is waiting
for a category.  External collaborators (the Gemini extraction calls, the
Google Apps Script ledger, `datetime.now()`) are modelled as an explicit
environment record; the mutable module-level `pending_expenses` dict is
modelled as a map from sender identifier to an optional pending entry.

Modelling conventions, kept uniform through the file:
* Python dicts keyed by strings become functions `String → Option _`;
  an assignment is a pointwise update, `del` is an update to `none`.
* A pending-expense dict may lack keys, so the entry record stores
  `Option String` fields; Python `d.get(k)` is the field itself,
  `d.get(k, v)` is `Option.getD _ v`, and a direct `d[k]` access on the
  paths the handler actually reaches is written `Option.getD _ ""`
  (those paths are only taken with the key present, see the C9 invariant).
* Python truthiness of a string-or-None value is `none` or `some ""`
  being falsy.
* Amounts aggregated by `calculate_stats` are modelled as rationals
  standing for the parsed floats; the claims checked here only involve
  comparisons with zero and small literal amounts, on which float and
  rational arithmetic agree.
* `datetime` values parsed by `strptime` are modelled by a record holding
  the proleptic ordinal of the midnight instant plus the month and year
  fields; `datetime.now()` additionally carries the seconds elapsed since
  midnight.  `timedelta.days` is floor division of the total seconds by
  86400, exactly as CPython normalises timedeltas.
* Reply texts keep the structure and the dynamic parts of the Python
  f-strings; emoji, the currency glyph and apostrophes are elided and the
  thousands-separator float formatting is abstracted by `toString`.
-/

namespace ExpenseTracker

/-! ## Decimal numerals: model of Python `str(idx)` for the menu indices -/

/-- Character of a single decimal digit, as Python `str` prints it. -/
def digitChar (d : Nat) : Char := Char.ofNat (48 + d)

/-- Fuel-driven digit extraction; the fuel only serves structural
termination and never runs out when it starts at the number itself. -/
def natDigitsRevAux : Nat → Nat → List Char
  | _, 0 => []
  | 0, _ + 1 => []
  | fuel + 1, n + 1 => digitChar ((n+1) % 10) :: natDigitsRevAux fuel ((n+1) / 10)

/-- Little-endian list of decimal digit characters of `n` (empty for 0). -/
def natDigitsRev (n : Nat) : List Char := natDigitsRevAux n n

theorem natDigitsRevAux_fuel : ∀ (f1 f2 n : Nat), n ≤ f1 → n ≤ f2 →
    natDigitsRevAux f1 n = natDigitsRevAux f2 n := by
  intro f1
  induction f1 with
  | zero =>
    intro f2 n h1 _
    interval_cases n
    match f2 with
    | 0 => rfl
    | _ + 1 => rfl
  | succ f ih =>
    intro f2 n h1 h2
    match n, f2 with
    | 0, 0 => rfl
    | 0, _ + 1 => rfl
    | m + 1, 0 => omega
    | m + 1, g + 1 =>
      simp only [natDigitsRevAux]
      have hd : (m+1) / 10 < m + 1 := Nat.div_lt_self (Nat.succ_pos m) (by decide)
      rw [ih g ((m+1) / 10) (by omega) (by omega)]

theorem natDigitsRev_succ (n : Nat) :
    natDigitsRev (n+1) = digitChar ((n+1) % 10) :: natDigitsRev ((n+1) / 10) := by
  show natDigitsRevAux (n+1) (n+1) = digitChar ((n+1) % 10) :: natDigitsRevAux ((n+1)/10) ((n+1)/10)
  simp only [natDigitsRevAux]
  have hd : (n+1) / 10 < n + 1 := Nat.div_lt_self (Nat.succ_pos n) (by decide)
  rw [natDigitsRevAux_fuel n ((n+1)/10) ((n+1)/10) (by omega) (by omega)]

/-- Decimal numeral of a natural number; models Python `str(idx)`. -/
def natStr (n : Nat) : String :=
  if n = 0 then "0" else String.mk (natDigitsRev n).reverse

/-- Value of a little-endian digit-character list, inverse of `natDigitsRev`. -/
def digitsVal : List Char → Nat
  | [] => 0
  | c :: t => (c.toNat - 48) + 10 * digitsVal t

theorem toNat_digitChar {d : Nat} (h : d < 10) : (digitChar d).toNat = 48 + d := by
  interval_cases d <;> decide

theorem digitsVal_natDigitsRev (n : Nat) : digitsVal (natDigitsRev n) = n := by
  induction n using Nat.strong_induction_on with
  | _ n ih =>
    match n with
    | 0 => simp [natDigitsRev, natDigitsRevAux, digitsVal]
    | m+1 =>
      have hlt : (m+1) / 10 < m+1 := Nat.div_lt_self (Nat.succ_pos m) (by decide)
      have hmod : (m+1) % 10 < 10 := Nat.mod_lt _ (by decide)
      rw [natDigitsRev_succ]
      simp only [digitsVal, toNat_digitChar hmod, Nat.add_sub_cancel_left, ih _ hlt]
      omega

theorem natDigitsRev_ne_nil {n : Nat} (h : n ≠ 0) : natDigitsRev n ≠ [] := by
  match n with
  | 0 => exact absurd rfl h
  | m+1 =>
    rw [natDigitsRev_succ]
    simp

theorem natStr_inj {a b : Nat} (h : natStr a = natStr b) : a = b := by
  unfold natStr at h
  by_cases ha : a = 0 <;> by_cases hb : b = 0 <;> simp [ha, hb] at h ⊢
  · -- a = 0, b ≠ 0 : "0" = digits of b forces b = 0
    have hd : ['0'] = (natDigitsRev b).reverse := congrArg String.data h
    have : natDigitsRev b = ['0'] := by
      have := congrArg List.reverse hd
      simpa using this.symm
    have hv := digitsVal_natDigitsRev b
    rw [this] at hv
    simp [digitsVal] at hv
    omega
  · have hd : (natDigitsRev a).reverse = ['0'] := congrArg String.data h
    have : natDigitsRev a = ['0'] := by
      have := congrArg List.reverse hd
      simpa using this
    have hv := digitsVal_natDigitsRev a
    rw [this] at hv
    simp [digitsVal] at hv
    omega
  · have hd : (natDigitsRev a).reverse = (natDigitsRev b).reverse := congrArg String.data h
    have hrev : natDigitsRev a = natDigitsRev b := by
      have := congrArg List.reverse hd
      simpa using this
    have := digitsVal_natDigitsRev a
    rw [hrev, digitsVal_natDigitsRev] at this
    exact this.symm

theorem mem_natDigitsRev_isDigit {n : Nat} {c : Char} (h : c ∈ natDigitsRev n) :
    48 ≤ c.toNat ∧ c.toNat ≤ 57 := by
  induction n using Nat.strong_induction_on with
  | _ n ih =>
    match n with
    | 0 => simp [natDigitsRev, natDigitsRevAux] at h
    | m+1 =>
      rw [natDigitsRev_succ] at h
      simp only [List.mem_cons] at h
      rcases h with h | h
      · subst h
        have hmod : (m+1) % 10 < 10 := Nat.mod_lt _ (by decide)
        rw [toNat_digitChar hmod]
        omega
      · exact ih _ (Nat.div_lt_self (Nat.succ_pos m) (by decide)) h

/-- A string containing a character that is not a decimal digit is not the
decimal numeral of any natural number. -/
theorem ne_natStr_of_nonDigit {s : String} {c : Char} (hc : c ∈ s.data)
    (hnd : ¬ (48 ≤ c.toNat ∧ c.toNat ≤ 57)) : ∀ m, s ≠ natStr m := by
  intro m hs
  subst hs
  unfold natStr at hc
  by_cases hm : m = 0
  · simp [hm] at hc
    subst hc
    exact hnd (by decide)
  · simp [hm] at hc
    exact hnd (mem_natDigitsRev_isDigit hc)

/-! ## Python string primitives

Python `.strip()` and `.lower()` are modelled structurally on the
character list of the string (the core library versions are equivalent
but defined by well-founded recursion on byte positions, which blocks
evaluation inside proofs). -/

/-- Python `s.strip()`: drop leading and trailing whitespace. -/
def trimStr (s : String) : String :=
  ⟨((s.data.dropWhile Char.isWhitespace).reverse.dropWhile Char.isWhitespace).reverse⟩

/-- Python `s.lower()` (the messages involved are ASCII). -/
def lowerStr (s : String) : String := ⟨s.data.map Char.toLower⟩

/-! ## Category resolution (src/app.py lines 349-386)

The handler builds a Python dict `category_map` with the literal entries
for the four standard categories (plus the shorthands) and then, for each
custom category at index `idx` starting from 5, assigns
`category_map[str(idx)] = cat_name` and
`category_map[cat_name.lower()] = cat_name`.  A dict with string keys is
modelled as a function `String → Option String`; each assignment is a
pointwise update, so a later assignment to the same key shadows an
earlier one, exactly like the Python dict. -/

/-- The fixed category names, `STANDARD_CATEGORIES` in src/app.py. -/
def STANDARD_CATEGORIES : List String := ["Cable", "Labour", "Material Purchase", "Fuel"]

/-- The dict literal at src/app.py lines 356-366. -/
def baseCategoryMap : String → Option String := fun k =>
  if k = "1" then some "Cable"
  else if k = "2" then some "Labour"
  else if k = "3" then some "Material Purchase"
  else if k = "4" then some "Fuel"
  else if k = "cable" then some "Cable"
  else if k = "labour" then some "Labour"
  else if k = "material" then some "Material Purchase"
  else if k = "material purchase" then some "Material Purchase"
  else if k = "fuel" then some "Fuel"
  else none

/-- One Python dict assignment `m[k] = v`. -/
def dinsert (m : String → Option String) (k v : String) : String → Option String :=
  fun x => if x = k then some v else m x

/-- The loop at src/app.py lines 369-371: for each custom category, insert
its numeric key (starting at index 5) and its lowercased name. -/
def addCustomEntries : (String → Option String) → Nat → List String → (String → Option String)
  | m, _, [] => m
  | m, idx, c :: rest => addCustomEntries (dinsert (dinsert m (natStr idx) c) (lowerStr c) c) (idx+1) rest

/-- The completed `category_map` for a snapshot of custom categories. -/
def categoryMap (custom : List String) : String → Option String :=
  addCustomEntries baseCategoryMap 5 custom

/-- Model of `category_map.get(category_input.lower())` followed by the
`if not final_category` truthiness test (src/app.py lines 376-378): the
input is stripped and lowercased, and an empty-string hit counts as
unresolved. -/
def resolveCategory (custom : List String) (input : String) : Option String :=
  match categoryMap custom (lowerStr (trimStr input)) with
  | some v => if v.isEmpty then none else some v
  | none => none

theorem addCustomEntries_untouched (custom : List String) :
    ∀ (m : String → Option String) (idx : Nat) (k : String),
      (∀ j, j < custom.length → k ≠ natStr (idx + j)) →
      (∀ c ∈ custom, k ≠ lowerStr c) →
      addCustomEntries m idx custom k = m k := by
  induction custom with
  | nil => intro m idx k _ _; rfl
  | cons c rest ih =>
    intro m idx k hnum hname
    simp only [addCustomEntries]
    rw [ih _ (idx+1) k
      (fun j hj => by
        have h1 : j + 1 < (c :: rest).length := by simp; omega
        have h2 : idx + 1 + j = idx + (j + 1) := by omega
        rw [h2]
        exact hnum (j+1) h1)
      (fun c' hc' => hname c' (List.mem_cons_of_mem _ hc'))]
    simp only [dinsert]
    rw [if_neg (hname c (List.mem_cons_self _ _)), if_neg (by
      have h1 : (0:Nat) < (c :: rest).length := by simp
      have := hnum 0 h1
      simpa using this)]

theorem addCustomEntries_name (custom : List String) :
    ∀ (m : String → Option String) (idx : Nat) (c : String),
      c ∈ custom →
      (custom.map lowerStr).Nodup →
      (∀ j, j < custom.length → lowerStr c ≠ natStr (idx + j)) →
      addCustomEntries m idx custom (lowerStr c) = some c := by
  induction custom with
  | nil => intro m idx c hc; simp at hc
  | cons c0 rest ih =>
    intro m idx c hc hnd hnum
    simp only [List.map_cons, List.nodup_cons] at hnd
    rcases List.mem_cons.mp hc with rfl | hc'
    · simp only [addCustomEntries]
      rw [addCustomEntries_untouched rest _ (idx+1) _
        (fun j hj => by
          have h1 : j + 1 < (c :: rest).length := by simp; omega
          have h2 : idx + 1 + j = idx + (j + 1) := by omega
          rw [h2]
          exact hnum (j+1) h1)
        (fun c' hc' => by
          intro heq
          exact hnd.1 (by
            rw [heq]
            exact List.mem_map_of_mem lowerStr hc'))]
      simp [dinsert]
    · simp only [addCustomEntries]
      exact ih _ (idx+1) c hc' hnd.2
        (fun j hj => by
          have h1 : j + 1 < (c0 :: rest).length := by simp; omega
          have h2 : idx + 1 + j = idx + (j + 1) := by omega
          rw [h2]
          exact hnum (j+1) h1)

theorem addCustomEntries_pos (custom : List String) :
    ∀ (m : String → Option String) (idx : Nat) (j : Nat) (hj : j < custom.length),
      (∀ c ∈ custom, lowerStr c ≠ natStr (idx + j)) →
      addCustomEntries m idx custom (natStr (idx + j)) = some (custom.get ⟨j, hj⟩) := by
  induction custom with
  | nil => intro m idx j hj; simp at hj
  | cons c0 rest ih =>
    intro m idx j hj hname
    match j with
    | 0 =>
      simp only [addCustomEntries, Nat.add_zero]
      rw [addCustomEntries_untouched rest _ (idx+1) _
        (fun j' hj' => by
          intro heq
          have : idx = idx + 1 + j' := natStr_inj heq
          omega)
        (fun c' hc' => by
          intro heq
          exact hname c' (List.mem_cons_of_mem _ hc') (by
            rw [Nat.add_zero]
            exact heq.symm))]
      simp only [dinsert]
      rw [if_neg (by
        intro heq
        exact hname c0 (List.mem_cons_self _ _) (by
          rw [Nat.add_zero]
          exact heq.symm))]
      simp
    | j'+1 =>
      simp only [addCustomEntries]
      have hj' : j' < rest.length := by
        have := hj
        simp at this
        omega
      have heq : idx + (j' + 1) = idx + 1 + j' := by omega
      rw [heq]
      have := ih (dinsert (dinsert m (natStr idx) c0) (lowerStr c0) c0) (idx+1) j' hj'
        (fun c' hc' => by
          have h3 := hname c' (List.mem_cons_of_mem _ hc')
          rw [heq] at h3
          exact h3)
      rw [this]
      rfl

/-! ## Data model for sheet rows and dates -/

/-- A row returned by `get_sheet_data` (a JSON object).  `amount` stands
for the float that `float(row.get(..))` parses; `category` is `none` when
the JSON object lacks the key (then `row.get(..., ..)` returns the
default). -/
structure Row where
  date : String
  amount : ℚ
  description : String
  category : Option String
deriving DecidableEq, Repr

/-- A `datetime` produced by `strptime(_, d-m-Y)`: midnight of a calendar
date, given by its proleptic ordinal together with its month and year. -/
structure PyDate where
  ord : Int
  month : Nat
  year : Int
deriving DecidableEq, Repr

/-- The value of `datetime.now()` in `calculate_stats`: the ordinal of the
current calendar date, the seconds elapsed since midnight (so the full
instant is `ord * 86400 + secs` seconds), and the month and year fields. -/
structure PyNow where
  ord : Int
  secs : Nat
  month : Nat
  year : Int
deriving DecidableEq, Repr

/-- `timedelta.days` of a span of `seconds`: CPython normalises a
timedelta so that `days` is the floor of the total seconds over 86400. -/
def tdDays (seconds : Int) : Int := Int.fdiv seconds 86400

/-- The per-row window test of `calculate_stats` (src/app.py lines
215-226): a row whose date fails to parse is skipped; otherwise `today`
compares calendar dates, `week` tests `(today - row_date).days <= 7`, and
`month` compares month and year. -/
def filterRow (now : PyNow) (strp : String → Option PyDate) (period : String) (r : Row) : Bool :=
  match strp r.date with
  | none => false
  | some d =>
    if period = "today" then d.ord == now.ord
    else if period = "week" then decide (tdDays (now.ord * 86400 + (now.secs : Int) - d.ord * 86400) ≤ 7)
    else if period = "month" then d.month == now.month && decide (d.year = now.year)
    else false

/-- Per-category accumulator entry, `{'total': .., 'count': ..}`. -/
structure CatStat where
  total : ℚ
  count : Nat
deriving DecidableEq, Repr

/-- One iteration of the totalling loop (src/app.py lines 231-236) over an
insertion-ordered dict represented as an association list: an existing
category has its total and count bumped in place, a new category is
appended. -/
def updateStat : List (String × CatStat) → String → ℚ → List (String × CatStat)
  | [], k, amt => [(k, ⟨amt, 1⟩)]
  | (k', v) :: t, k, amt =>
    if k' = k then (k', ⟨v.total + amt, v.count + 1⟩) :: t
    else (k', v) :: updateStat t k amt

/-- The `category_totals` dict built from the filtered rows; a row with no
category key is grouped under the default `Other`. -/
def categoryTotals (rows : List Row) : List (String × CatStat) :=
  rows.foldl (fun acc r => updateStat acc (r.category.getD "Other") r.amount) []

/-- Model of `calculate_stats(data, period)` (src/app.py lines 207-238):
`None` for falsy data, otherwise the per-category totals together with
`len(filtered_data)`. -/
def calculate_stats (now : PyNow) (strp : String → Option PyDate) (data : List Row)
    (period : String) : Option (List (String × CatStat) × Nat) :=
  if data.isEmpty then none
  else
    let filtered := data.filter (filterRow now strp period)
    some (categoryTotals filtered, filtered.length)

/-- Lookup in the totals dict (`stats[cat]`); total queried keys always
come from the dict, so the default is never observed. -/
def statOf (totals : List (String × CatStat)) (c : String) : CatStat :=
  (((totals.find? (fun p => p.1 == c))).map Prod.snd).getD ⟨0, 0⟩

/-- Code-point lexicographic comparison of character lists, the order by
which Python `sorted` compares strings. -/
def strLtb : List Char → List Char → Bool
  | [], [] => false
  | [], _ :: _ => true
  | _ :: _, [] => false
  | a :: as, b :: bs =>
    if a.toNat < b.toNat then true
    else if b.toNat < a.toNat then false
    else strLtb as bs

/-- `sorted(stats.keys())`: Python sorts strings by code points; the
rendering loop of the webhook iterates over this order. -/
def sortedCats (totals : List (String × CatStat)) : List String :=
  List.insertionSort (fun a b => strLtb b.data a.data = false) (totals.map Prod.fst)

/-- The categories the stats loop actually renders (src/app.py lines
280-283): those in sorted key order whose accumulated total is positive;
a category whose total is zero or negative is skipped. -/
def renderedCats (totals : List (String × CatStat)) : List String :=
  (sortedCats totals).filter (fun c => decide (0 < (statOf totals c).total))

/-- `grand_total`, accumulated only over the rendered categories. -/
def grandTotal (totals : List (String × CatStat)) : ℚ :=
  (renderedCats totals).foldl (fun g c => g + (statOf totals c).total) 0

/-- Python `s.capitalize()`: first character upper-cased, rest lower. -/
def pyCapitalize (s : String) : String :=
  match s.data with
  | [] => ""
  | c :: t => String.mk (c.toUpper :: t.map Char.toLower)

/-- The text of the stats reply (src/app.py lines 276-285); emoji, the
currency glyph, the apostrophe and the thousands formatting are elided. -/
def statsText (command : String) (totals : List (String × CatStat)) (n : Nat) : String :=
  let header := pyCapitalize command ++ "s Expenses\n\n"
  let body := (renderedCats totals).foldl
    (fun acc c =>
      acc ++ c ++ ": Rs" ++ toString (statOf totals c).total ++ " (" ++
        toString (statOf totals c).count ++ " transactions)\n") header
  body ++ "\nTotal: Rs" ++ toString (grandTotal totals) ++ " (" ++ toString n ++ " transactions)"

/-! ## The webhook handler (src/app.py lines 240-507)

`whatsapp_webhook` reads the message body and sender, consults and
mutates the module-level `pending_expenses` dict, calls the external
collaborators, sets exactly one reply body and returns it.  The external
collaborators and the clock are collected in an `Env` record; the handler
body becomes a pure step function from the current pending map to a
`StepResult`.  Besides the reply and the new pending map, the step
returns the ordered list of observable actions it performed, in program
order: composing the reply body (`msg.body(..)`), starting the background
`add_expense_to_sheet` thread, and calling `save_custom_category`. -/

/-- One entry of `pending_expenses`: a dict that may lack keys, plus the
`waiting_for` discriminator (always set when an entry is stored). -/
structure Pending where
  date : Option String
  amount : Option String
  description : Option String
  category : Option String
  waiting_for : String
deriving DecidableEq, Repr

/-- The JSON object returned by `parse_expense_with_gemini`; a field is
`none` when the key is absent from the object. -/
structure Parsed where
  date : Option String
  amount : Option String
  description : Option String
  category : Option String
deriving DecidableEq, Repr

/-- The external collaborators of one webhook invocation.  The two result
fields `saveCustomResult` and `appendResult` are the booleans returned by
`save_custom_category` and `add_expense_to_sheet`; the handler discards
both (the first is an ignored call result, the second happens on a
background thread), which the theorems below make explicit. -/
structure Env where
  parseDate : String → Option String
  customCats : List String
  parseExpense : String → Option Parsed
  sheetData : Option (List Row)
  now : PyNow
  strptime : String → Option PyDate
  saveCustomResult : Bool
  appendResult : Bool

/-- Observable actions of one invocation, in program order. -/
inductive Event where
  | composeReply (body : String)
  | dispatchAppend (date amount description category : String)
  | callSaveCustom (name : String)
deriving DecidableEq, Repr

/-- Result of one invocation: reply body, new pending map, action trace. -/
structure StepResult where
  reply : String
  pending : String → Option Pending
  events : List Event

/-- Python truthiness of an optional string: `None` and `""` are falsy. -/
def pyTruthy (o : Option String) : Bool :=
  match o with
  | none => false
  | some s => !s.isEmpty

/-- The numbered category menu (src/app.py lines 321-324 and twins):
the four fixed lines plus one line per custom category from index 5. -/
def catListAux : List String → Nat → String
  | [], _ => ""
  | c :: rest, idx => "\n" ++ natStr idx ++ ". " ++ c ++ catListAux rest (idx+1)

def catListStr (custom : List String) : String :=
  "1. Cable\n2. Labour\n3. Material Purchase\n4. Fuel" ++ catListAux custom 5

/-! Reply bodies (emoji and apostrophes elided). -/

def emptyPromptMsg : String := "Please send me an expense message!"
def cancelledMsg : String := "Previous expense cancelled. You can now add a new expense."
def noPendingMsg : String := "No pending expense to cancel."
def couldNotRetrieveMsg : String := "Could not retrieve data from sheet."
def noExpensesMsg : String := "No expenses found."
def dateRetryMsg : String := "I could not understand that date. Please try again or type cancel"
def invalidCustomNameMsg : String := "Please provide a valid category name (at least 2 characters)"
def couldNotUnderstandMsg : String :=
  "I could not understand that. Please try again.\n\nExample: Labour work 2000 on 15th Oct"
def enterDateMsg : String :=
  "Please enter the date for this expense:\n(Example: today, yesterday, 18 oct, 18/10/2025)"
def customNamePromptMsg : String :=
  "Please specify the custom category name:\n(Example: Food, Transport, Maintenance, etc.)"

def chooseCategoryMsg (custom : List String) : String :=
  "Please choose a category:\n\n" ++ catListStr custom ++ "\n\nReply with the number or category name."

def invalidCategoryMsg (custom : List String) : String :=
  "Invalid category. Please choose:\n\n" ++ catListStr custom ++ "\n\nOr type cancel"

/-- The `Adding expense...` confirmation, used identically on every
completion path (src/app.py lines 330, 391, 424, 491). -/
def addingMsg (date amount description category : String) : String :=
  "Adding expense...\n\nDate: " ++ date ++ "\nAmount: Rs" ++ amount ++
    "\nDescription: " ++ description ++ "\nCategory: " ++ category

/-- The `last` reply (src/app.py line 295). -/
def lastMsg (r : Row) : String :=
  "Last Expense\n\nDate: " ++ r.date ++ "\nAmount: Rs" ++ toString r.amount ++
    "\nDescription: " ++ r.description ++ "\nCategory: " ++ (r.category.getD "")

/-- The stats branch (src/app.py lines 271-289): fetch the sheet, answer
with the aggregation when the data is truthy, otherwise apologise. -/
def statsBranchReply (now : PyNow) (strp : String → Option PyDate)
    (sheetData : Option (List Row)) (command : String) : String :=
  match sheetData with
  | none => couldNotRetrieveMsg
  | some data =>
    if data.isEmpty then couldNotRetrieveMsg
    else
      match calculate_stats now strp data command with
      | some (totals, n) => statsText command totals n
      | none => couldNotRetrieveMsg

/-- The `last` branch (src/app.py lines 291-299). -/
def lastBranchReply (sheetData : Option (List Row)) : String :=
  match sheetData with
  | none => noExpensesMsg
  | some data =>
    match data.getLast? with
    | some r => lastMsg r
    | none => noExpensesMsg

/-- The new-message path (src/app.py lines 443-507): run the extraction,
reject unusable results, open a session for a missing date or an
uncertain or Other category, otherwise complete immediately.  This code
is also reached from an open session whose `waiting_for` value matches no
branch, since the Python dispatch falls through. -/
def parseNewExpense (env : Env) (incoming frm : String)
    (pend : String → Option Pending) : StepResult :=
  match env.parseExpense incoming with
  | none => ⟨couldNotUnderstandMsg, pend, [.composeReply couldNotUnderstandMsg]⟩
  | some parsed =>
    if parsed.amount = none ∨ parsed.description = none then
      ⟨couldNotUnderstandMsg, pend, [.composeReply couldNotUnderstandMsg]⟩
    else if parsed.date = some "missing" then
      let entry : Pending :=
        ⟨none, parsed.amount, parsed.description, some (parsed.category.getD "uncertain"), "date"⟩
      ⟨enterDateMsg, fun s => if s = frm then some entry else pend s, [.composeReply enterDateMsg]⟩
    else if parsed.category = some "uncertain" then
      let entry : Pending :=
        ⟨some (parsed.date.getD ""), parsed.amount, parsed.description, none, "category"⟩
      let r := chooseCategoryMsg env.customCats
      ⟨r, fun s => if s = frm then some entry else pend s, [.composeReply r]⟩
    else if parsed.category = some "Other" then
      let entry : Pending :=
        ⟨some (parsed.date.getD ""), parsed.amount, parsed.description, none, "custom_category"⟩
      ⟨customNamePromptMsg, fun s => if s = frm then some entry else pend s,
        [.composeReply customNamePromptMsg]⟩
    else
      let r := addingMsg (parsed.date.getD "") (parsed.amount.getD "")
        (parsed.description.getD "") (parsed.category.getD "")
      ⟨r, pend,
        [.composeReply r,
         .dispatchAppend (parsed.date.getD "") (parsed.amount.getD "")
           (parsed.description.getD "") (parsed.category.getD "")]⟩

/-- The session-dispatch block (src/app.py lines 302-441), the body of
the `if from_number in pending_expenses` branch: dispatch on
`waiting_for`; an unrecognised value falls through to the new-message
path exactly as the Python if/elif chain does. -/
def dispatchPending (env : Env) (incoming frm : String)
    (pend : String → Option Pending) (pending : Pending) : StepResult :=
  if pending.waiting_for = "date" then
          let final_date := env.parseDate incoming
          if pyTruthy final_date then
            let d := final_date.getD ""
            if pending.category = some "uncertain" then
              let entry := { pending with date := some d, waiting_for := "category" }
              let r := chooseCategoryMsg env.customCats
              ⟨r, fun s => if s = frm then some entry else pend s, [.composeReply r]⟩
            else
              let r := addingMsg d (pending.amount.getD "") (pending.description.getD "")
                (pending.category.getD "")
              ⟨r, fun s => if s = frm then none else pend s,
                [.composeReply r,
                 .dispatchAppend d (pending.amount.getD "") (pending.description.getD "")
                   (pending.category.getD "")]⟩
          else
            ⟨dateRetryMsg, pend, [.composeReply dateRetryMsg]⟩
        else if pending.waiting_for = "category" then
          match resolveCategory env.customCats incoming with
          | none =>
            let r := invalidCategoryMsg env.customCats
            ⟨r, pend, [.composeReply r]⟩
          | some c =>
            let r := addingMsg (pending.date.getD "") (pending.amount.getD "")
              (pending.description.getD "") c
            ⟨r, fun s => if s = frm then none else pend s,
              [.composeReply r,
               .dispatchAppend (pending.date.getD "") (pending.amount.getD "")
                 (pending.description.getD "") c]⟩
        else if pending.waiting_for = "custom_category" then
          let cc := trimStr incoming
          if cc.isEmpty ∨ cc.length < 2 then
            ⟨invalidCustomNameMsg, pend, [.composeReply invalidCustomNameMsg]⟩
          else
            let r := addingMsg (pending.date.getD "") (pending.amount.getD "")
              (pending.description.getD "") cc
            ⟨r, fun s => if s = frm then none else pend s,
              [.callSaveCustom cc, .composeReply r,
               .dispatchAppend (pending.date.getD "") (pending.amount.getD "")
                 (pending.description.getD "") cc]⟩
  else parseNewExpense env incoming frm pend

/-- Model of one invocation of `whatsapp_webhook` (src/app.py lines
240-507). -/
def webhookStep (env : Env) (body frm : String)
    (pend : String → Option Pending) : StepResult :=
  let incoming := trimStr body
  if incoming.isEmpty then
    ⟨emptyPromptMsg, pend, [.composeReply emptyPromptMsg]⟩
  else
    let command := lowerStr incoming
    if command = "cancel" ∨ command = "reset" then
      match pend frm with
      | some _ =>
        ⟨cancelledMsg, fun s => if s = frm then none else pend s, [.composeReply cancelledMsg]⟩
      | none => ⟨noPendingMsg, pend, [.composeReply noPendingMsg]⟩
    else if command = "today" ∨ command = "week" ∨ command = "month" then
      let r := statsBranchReply env.now env.strptime env.sheetData command
      ⟨r, pend, [.composeReply r]⟩
    else if command = "last" ∨ command = "last expense" then
      let r := lastBranchReply env.sheetData
      ⟨r, pend, [.composeReply r]⟩
    else
      match pend frm with
      | some pending => dispatchPending env incoming frm pend pending
      | none => parseNewExpense env incoming frm pend

/-- The control commands recognised ahead of session dispatch, applied to
the trimmed, lowercased message. -/
def isCommand (c : String) : Prop :=
  c = "cancel" ∨ c = "reset" ∨ c = "today" ∨ c = "week" ∨ c = "month" ∨
    c = "last" ∨ c = "last expense"

instance (c : String) : Decidable (isCommand c) := by
  unfold isCommand
  infer_instance

/-! ## Theorems for the claims -/

theorem tdDays_shift (a b : Int) (s : Nat) (hs : s < 86400) :
    tdDays (a * 86400 + (s : Int) - b * 86400) = a - b := by
  have h1 : a * 86400 + (s : Int) - b * 86400 = (s : Int) + (a - b) * 86400 := by ring
  rw [h1]
  unfold tdDays
  rw [Int.fdiv_eq_ediv _ (by decide : (0:Int) ≤ 86400),
    Int.add_mul_ediv_right _ _ (by decide : (86400:Int) ≠ 0),
    Int.ediv_eq_zero_of_lt (by positivity) (by omega)]
  omega

/-- Claim C10 (confirmed): the `week` stats window admits exactly the rows
whose parsed date `d` satisfies `(now - d).days <= 7`, and in particular
admits every row dated strictly in the future, since the raw day
difference is then negative. -/
theorem C10_week_window_admits_future (now : PyNow) (strp : String → Option PyDate)
    (r : Row) (pd : PyDate) (hstrp : strp r.date = some pd) (hsecs : now.secs < 86400) :
    (filterRow now strp "week" r = true ↔ now.ord - pd.ord ≤ 7) ∧
    (now.ord < pd.ord → filterRow now strp "week" r = true) := by
  have hfr : filterRow now strp "week" r =
      decide (tdDays (now.ord * 86400 + (now.secs : Int) - pd.ord * 86400) ≤ 7) := by
    unfold filterRow
    rw [hstrp]
    simp
  rw [hfr, tdDays_shift _ _ _ hsecs]
  constructor
  · simp
  · intro hfut
    simp
    omega

/-- Claim C10 witness: a row dated five days in the future passes the
`week` filter. -/
theorem C10_week_window_admits_future_witness :
    filterRow ⟨100, 500, 1, 2025⟩
      (fun s => if s = "05-01-2025" then some ⟨105, 1, 2025⟩ else none)
      "week" ⟨"05-01-2025", 1, "diesel", some "Fuel"⟩ = true :=
  (C10_week_window_admits_future ⟨100, 500, 1, 2025⟩
      (fun s => if s = "05-01-2025" then some ⟨105, 1, 2025⟩ else none)
      ⟨"05-01-2025", 1, "diesel", some "Fuel"⟩ ⟨105, 1, 2025⟩
      (by decide) (by decide)).2 (by decide)

/-- Concrete stats scenario refuting the transaction-count half of claim
C3: two same-day rows, category X with amount 0 and category Y with
amount 5. -/
def strpC3 : String → Option PyDate :=
  fun s => if s = "01-01-2025" then some ⟨0, 1, 2025⟩ else none

def dataC3 : List Row :=
  [⟨"01-01-2025", 0, "a", some "X"⟩, ⟨"01-01-2025", 5, "b", some "Y"⟩]

def totalsC3 : List (String × CatStat) := [("X", ⟨0, 1⟩), ("Y", ⟨5, 1⟩)]

/-- Claim C3 counterexample: on the two-row window above the reported
transaction count is `len(filtered_data) = 2`, even though only one row
belongs to a category with a non-zero total, so the count does include
rows of zero-total categories; the rendered summary still omits `X`. -/
theorem C3_counterexample :
    calculate_stats ⟨0, 0, 1, 2025⟩ strpC3 dataC3 "today" = some (totalsC3, 2) ∧
    renderedCats totalsC3 = ["Y"] ∧
    (dataC3.filter
      (fun r => decide (0 < (statOf totalsC3 (r.category.getD "Other")).total))).length = 1 ∧
    (2 : Nat) ≠ 1 := by decide

/-- Claim C3 as amended (proved): a category whose summed total is zero
(or negative) is omitted from the rendered per-category summary, but the
overall transaction count reported in the reply is the number of all rows
admitted to the window, regardless of their category totals. -/
theorem C3_zero_total_omitted_count_includes_all (now : PyNow)
    (strp : String → Option PyDate) (data : List Row) (period : String)
    (totals : List (String × CatStat)) (n : Nat)
    (h : calculate_stats now strp data period = some (totals, n)) :
    n = (data.filter (filterRow now strp period)).length ∧
    ∀ c, c ∈ renderedCats totals ↔ (c ∈ totals.map Prod.fst ∧ 0 < (statOf totals c).total) := by
  unfold calculate_stats at h
  constructor
  · split at h
    · exact absurd h (by simp)
    · simp only [Option.some.injEq, Prod.mk.injEq] at h
      exact h.2.symm
  · intro c
    unfold renderedCats sortedCats
    simp [List.mem_filter, List.mem_insertionSort]

/-- Claim C3 witness for the amended statement, on the concrete scenario
of the counterexample. -/
theorem C3_zero_total_omitted_count_includes_all_witness :
    (2 : Nat) = (dataC3.filter (filterRow ⟨0, 0, 1, 2025⟩ strpC3 "today")).length ∧
    ("Y" ∈ renderedCats totalsC3 ↔
      ("Y" ∈ totalsC3.map Prod.fst ∧ 0 < (statOf totalsC3 "Y").total)) :=
  ⟨(C3_zero_total_omitted_count_includes_all ⟨0, 0, 1, 2025⟩ strpC3 dataC3 "today"
      totalsC3 2 (by decide)).1,
   (C3_zero_total_omitted_count_includes_all ⟨0, 0, 1, 2025⟩ strpC3 dataC3 "today"
      totalsC3 2 (by decide)).2 "Y"⟩

/-- Claim C2 (confirmed): a stats command (`today`, `week` or `month`,
case-insensitive after trimming) issued while the sender has an open
session answers with the stats-branch reply and leaves the whole pending
map, in particular that sender entry with all its stored fields,
untouched. -/
theorem C2_stats_command_preserves_session (env : Env) (body frm : String)
    (pend : String → Option Pending) (p : Pending)
    (hcmd : lowerStr (trimStr body) = "today" ∨ lowerStr (trimStr body) = "week" ∨
      lowerStr (trimStr body) = "month")
    (hne : (trimStr body).isEmpty = false)
    (hp : pend frm = some p)
    (_hw : p.waiting_for = "date" ∨ p.waiting_for = "category" ∨
      p.waiting_for = "custom_category") :
    (webhookStep env body frm pend).pending frm = some p ∧
    (∀ s, (webhookStep env body frm pend).pending s = pend s) ∧
    (webhookStep env body frm pend).reply =
      statsBranchReply env.now env.strptime env.sheetData (lowerStr (trimStr body)) := by
  have hstep : webhookStep env body frm pend =
      ⟨statsBranchReply env.now env.strptime env.sheetData (lowerStr (trimStr body)), pend,
        [.composeReply
          (statsBranchReply env.now env.strptime env.sheetData (lowerStr (trimStr body)))]⟩ := by
    unfold webhookStep
    rcases hcmd with h | h | h <;> simp [hne, h]
  rw [hstep]
  exact ⟨hp, fun s => rfl, rfl⟩

/-- Claim C2 witness: the command `Today` with surrounding whitespace,
sent while an `AwaitingDate` session is open. -/
theorem C2_stats_command_preserves_session_witness :
    (webhookStep ⟨fun _ => none, [], fun _ => none, none, ⟨0, 0, 1, 2025⟩, fun _ => none,
        true, true⟩ "  Today " "u"
      (fun s => if s = "u" then some ⟨none, some "3000", some "cement", some "uncertain", "date"⟩
        else none)).pending "u" =
      some ⟨none, some "3000", some "cement", some "uncertain", "date"⟩ :=
  (C2_stats_command_preserves_session _ "  Today " "u" _
    ⟨none, some "3000", some "cement", some "uncertain", "date"⟩
    (by decide) (by decide) (by decide) (by decide)).1

/-- Claim C5 (confirmed): while the sender is awaiting a date, a message
whose date resolution fails (the Gemini call returns a falsy value)
produces the corrective prompt and leaves the pending map, and hence the
stored entry and all its fields, unchanged. -/
theorem C5_unresolvable_date_leaves_session (env : Env) (body frm : String)
    (pend : String → Option Pending) (p : Pending)
    (hne : (trimStr body).isEmpty = false)
    (hcmd : ¬ isCommand (lowerStr (trimStr body)))
    (hp : pend frm = some p)
    (hw : p.waiting_for = "date")
    (hdate : env.parseDate (trimStr body) = none ∨ env.parseDate (trimStr body) = some "") :
    (webhookStep env body frm pend).reply = dateRetryMsg ∧
    (∀ s, (webhookStep env body frm pend).pending s = pend s) := by
  unfold isCommand at hcmd
  push_neg at hcmd
  obtain ⟨h1, h2, h3, h4, h5, h6, h7⟩ := hcmd
  have hstep : webhookStep env body frm pend = ⟨dateRetryMsg, pend, [.composeReply dateRetryMsg]⟩ := by
    have he : ("" : String).isEmpty = true := by decide
    unfold webhookStep dispatchPending
    rcases hdate with h | h <;>
      simp [hne, h1, h2, h3, h4, h5, h6, h7, hp, hw, h, pyTruthy, he, dispatchPending]
  rw [hstep]
  exact ⟨rfl, fun s => rfl⟩

/-- Claim C5 witness: an unparsable date for an open `AwaitingDate`
session. -/
theorem C5_unresolvable_date_leaves_session_witness :
    (webhookStep ⟨fun _ => none, [], fun _ => none, none, ⟨0, 0, 1, 2025⟩, fun _ => none,
        true, true⟩ "eighteenish octoberish" "u"
      (fun s => if s = "u" then some ⟨none, some "3000", some "cement", some "uncertain", "date"⟩
        else none)).reply = dateRetryMsg :=
  (C5_unresolvable_date_leaves_session _ "eighteenish octoberish" "u" _
    ⟨none, some "3000", some "cement", some "uncertain", "date"⟩
    (by decide) (by decide) (by decide) (by decide) (Or.inl rfl)).1

/-- Claim C6 (confirmed): when an `AwaitingDate` session resolves its
date successfully, a stored `uncertain` category sends the session to
`AwaitingCategory`, carrying the resolved date and preserving the amount,
description and stored category, with the category menu as the reply;
a concrete stored category instead completes the expense: the session is
cleared and the append of the full expense is dispatched. -/
theorem C6_date_success_branches (env : Env) (body frm : String)
    (pend : String → Option Pending) (p : Pending) (d : String)
    (hne : (trimStr body).isEmpty = false)
    (hcmd : ¬ isCommand (lowerStr (trimStr body)))
    (hp : pend frm = some p)
    (hw : p.waiting_for = "date")
    (hdate : env.parseDate (trimStr body) = some d)
    (hd : d.isEmpty = false) :
    (p.category = some "uncertain" →
      (webhookStep env body frm pend).pending frm =
        some { p with date := some d, waiting_for := "category" } ∧
      (∀ s, s ≠ frm → (webhookStep env body frm pend).pending s = pend s) ∧
      (webhookStep env body frm pend).reply = chooseCategoryMsg env.customCats ∧
      (webhookStep env body frm pend).events =
        [.composeReply (chooseCategoryMsg env.customCats)]) ∧
    (∀ c, p.category = some c → c ≠ "uncertain" →
      (webhookStep env body frm pend).pending frm = none ∧
      (webhookStep env body frm pend).reply =
        addingMsg d (p.amount.getD "") (p.description.getD "") c ∧
      (webhookStep env body frm pend).events =
        [.composeReply (addingMsg d (p.amount.getD "") (p.description.getD "") c),
         .dispatchAppend d (p.amount.getD "") (p.description.getD "") c]) := by
  unfold isCommand at hcmd
  push_neg at hcmd
  obtain ⟨h1, h2, h3, h4, h5, h6, h7⟩ := hcmd
  constructor
  · intro hu
    have hstep : webhookStep env body frm pend =
        ⟨chooseCategoryMsg env.customCats,
          fun s => if s = frm then some { p with date := some d, waiting_for := "category" }
            else pend s,
          [.composeReply (chooseCategoryMsg env.customCats)]⟩ := by
      unfold webhookStep dispatchPending
      simp [hne, h1, h2, h3, h4, h5, h6, h7, hp, hw, hdate, hd, pyTruthy, hu]
    rw [hstep]
    refine ⟨by simp, fun s hs => by simp [hs], rfl, rfl⟩
  · intro c hc hcu
    have hstep : webhookStep env body frm pend =
        ⟨addingMsg d (p.amount.getD "") (p.description.getD "") c,
          fun s => if s = frm then none else pend s,
          [.composeReply (addingMsg d (p.amount.getD "") (p.description.getD "") c),
           .dispatchAppend d (p.amount.getD "") (p.description.getD "") c]⟩ := by
      unfold webhookStep dispatchPending
      have hnu : p.category ≠ some "uncertain" := by
        rw [hc]
        simp [hcu]
      simp [hne, h1, h2, h3, h4, h5, h6, h7, hp, hw, hdate, hd, pyTruthy, hnu, hc, hcu]
    rw [hstep]
    exact ⟨by simp, rfl, rfl⟩

/-- Claim C6 witness: both branches at concrete inputs — an uncertain
stored category goes to the category menu carrying the resolved date, a
concrete stored category completes and clears the session. -/
theorem C6_date_success_branches_witness :
    ((webhookStep ⟨fun _ => some "15-10-2025", [], fun _ => none, none, ⟨0, 0, 1, 2025⟩,
        fun _ => none, true, true⟩ "15 oct" "u"
      (fun s => if s = "u" then some ⟨none, some "3000", some "cement", some "uncertain", "date"⟩
        else none)).pending "u" =
      some ⟨some "15-10-2025", some "3000", some "cement", some "uncertain", "category"⟩) ∧
    ((webhookStep ⟨fun _ => some "15-10-2025", [], fun _ => none, none, ⟨0, 0, 1, 2025⟩,
        fun _ => none, true, true⟩ "15 oct" "u"
      (fun s => if s = "u" then some ⟨none, some "2000", some "labour work", some "Labour", "date"⟩
        else none)).pending "u" = none) :=
  ⟨((C6_date_success_branches _ "15 oct" "u" _
      ⟨none, some "3000", some "cement", some "uncertain", "date"⟩ "15-10-2025"
      (by decide) (by decide) (by decide) (by decide) rfl (by decide)).1 rfl).1,
   ((C6_date_success_branches _ "15 oct" "u" _
      ⟨none, some "2000", some "labour work", some "Labour", "date"⟩ "15-10-2025"
      (by decide) (by decide) (by decide) (by decide) rfl (by decide)).2 "Labour" rfl
      (by decide)).1⟩

/-- Environment and session for the C1 counterexample: the custom
category list contains a category literally named `Other`, so the
category menu offers it at position 5. -/
def envC1 : Env :=
  ⟨fun _ => none, ["Other"], fun _ => none, none, ⟨0, 0, 1, 2025⟩, fun _ => none, true, true⟩

def pendC1 : String → Option Pending :=
  fun s => if s = "u" then some ⟨some "10-10-2025", some "100", some "wire", none, "category"⟩
    else none

/-- Claim C1 counterexample: with an open `AwaitingCategory` session and a
message that resolves to the `Other` slot of the menu (here the custom
category named `Other`, offered as option 5), the handler does not
transition to `AwaitingCustomCategoryName`: it completes the expense with
category `Other`, dispatches the append and clears the session.  The
category branch of src/app.py (lines 349-408) has no special `Other` slot
at all. -/
theorem C1_counterexample :
    resolveCategory ["Other"] "Other" = some "Other" ∧
    catListStr ["Other"] =
      "1. Cable\n2. Labour\n3. Material Purchase\n4. Fuel\n5. Other" ∧
    (webhookStep envC1 "Other" "u" pendC1).pending "u" = none ∧
    (webhookStep envC1 "Other" "u" pendC1).events =
      [.composeReply (addingMsg "10-10-2025" "100" "wire" "Other"),
       .dispatchAppend "10-10-2025" "100" "wire" "Other"] := by decide

/-- Claim C1 as amended (proved): the `AwaitingCategory` branch never
transitions to `AwaitingCustomCategoryName` — any input it resolves, even
to a category literally named `Other`, completes the expense with that
name and clears the session.  The transition to
`AwaitingCustomCategoryName` with the free-text prompt happens only when
a fresh message (no open session) is extracted with the `Other` category
sentinel. -/
theorem C1_other_resolution_behaviour :
    (∀ (env : Env) (body frm : String) (pend : String → Option Pending) (p : Pending)
      (c : String),
      (trimStr body).isEmpty = false →
      ¬ isCommand (lowerStr (trimStr body)) →
      pend frm = some p →
      p.waiting_for = "category" →
      resolveCategory env.customCats (trimStr body) = some c →
      (webhookStep env body frm pend).pending frm = none ∧
      (webhookStep env body frm pend).events =
        [.composeReply (addingMsg (p.date.getD "") (p.amount.getD "") (p.description.getD "") c),
         .dispatchAppend (p.date.getD "") (p.amount.getD "") (p.description.getD "") c]) ∧
    (∀ (env : Env) (body frm : String) (pend : String → Option Pending) (parsed : Parsed),
      (trimStr body).isEmpty = false →
      ¬ isCommand (lowerStr (trimStr body)) →
      pend frm = none →
      env.parseExpense (trimStr body) = some parsed →
      parsed.amount ≠ none →
      parsed.description ≠ none →
      parsed.date ≠ some "missing" →
      parsed.category = some "Other" →
      (webhookStep env body frm pend).pending frm =
        some ⟨some (parsed.date.getD ""), parsed.amount, parsed.description, none,
          "custom_category"⟩ ∧
      (webhookStep env body frm pend).reply = customNamePromptMsg) := by
  constructor
  · intro env body frm pend p c hne hcmd hp hw hres
    unfold isCommand at hcmd
    push_neg at hcmd
    obtain ⟨h1, h2, h3, h4, h5, h6, h7⟩ := hcmd
    have hstep : webhookStep env body frm pend =
        ⟨addingMsg (p.date.getD "") (p.amount.getD "") (p.description.getD "") c,
          fun s => if s = frm then none else pend s,
          [.composeReply (addingMsg (p.date.getD "") (p.amount.getD "") (p.description.getD "") c),
           .dispatchAppend (p.date.getD "") (p.amount.getD "") (p.description.getD "") c]⟩ := by
      unfold webhookStep dispatchPending
      simp [hne, h1, h2, h3, h4, h5, h6, h7, hp, hw, hres]
    rw [hstep]
    exact ⟨by simp, rfl⟩
  · intro env body frm pend parsed hne hcmd hp hpe ham hde hdm hcat
    unfold isCommand at hcmd
    push_neg at hcmd
    obtain ⟨h1, h2, h3, h4, h5, h6, h7⟩ := hcmd
    have hstep : webhookStep env body frm pend =
        ⟨customNamePromptMsg,
          fun s => if s = frm then
            some ⟨some (parsed.date.getD ""), parsed.amount, parsed.description, none,
              "custom_category"⟩ else pend s,
          [.composeReply customNamePromptMsg]⟩ := by
      unfold webhookStep parseNewExpense
      simp [hne, h1, h2, h3, h4, h5, h6, h7, hp, hpe, ham, hde, hdm, hcat]
    rw [hstep]
    exact ⟨by simp, rfl⟩

/-- Claim C1 witness for the amended statement: the category-named-Other
completion of the counterexample scenario, and a fresh message extracted
with the `Other` sentinel opening an `AwaitingCustomCategoryName`
session. -/
theorem C1_other_resolution_behaviour_witness :
    ((webhookStep envC1 "Other" "u" pendC1).pending "u" = none) ∧
    ((webhookStep ⟨fun _ => none, [],
        fun _ => some ⟨some "10-10-2025", some "450", some "misc items", some "Other"⟩,
        none, ⟨0, 0, 1, 2025⟩, fun _ => none, true, true⟩ "misc items 450 on 10 oct" "u"
        (fun _ => none)).pending "u" =
      some ⟨some "10-10-2025", some "450", some "misc items", none, "custom_category"⟩) :=
  ⟨(C1_other_resolution_behaviour.1 envC1 "Other" "u" pendC1
      ⟨some "10-10-2025", some "100", some "wire", none, "category"⟩ "Other"
      (by decide) (by decide) (by decide) (by decide) (by decide)).1,
   (C1_other_resolution_behaviour.2 _ "misc items 450 on 10 oct" "u" _
      ⟨some "10-10-2025", some "450", some "misc items", some "Other"⟩
      (by decide) (by decide) rfl rfl (by decide) (by decide) (by decide) rfl).1⟩

theorem isEmpty_false_of_two_le {s : String} (h : 2 ≤ s.length) : s.isEmpty = false := by
  rw [Bool.eq_false_iff]
  intro he
  have hs : s = "" := (String.isEmpty_iff s).mp he
  subst hs
  simp [String.length] at h

/-- Claim C8 (confirmed): in `AwaitingCustomCategoryName`, a name of
trimmed length at least two always triggers the `save_custom_category`
call, composes the confirmation, dispatches the append with that name and
clears the session; the boolean returned by `save_custom_category` (and
by the background append) is ignored — the whole step result is identical
for every value of those two results. -/
theorem C8_register_result_ignored (pdf : String → Option String) (ccats : List String)
    (pef : String → Option Parsed) (sd : Option (List Row)) (nw : PyNow)
    (spf : String → Option PyDate) (sv ar : Bool) (body frm : String)
    (pend : String → Option Pending) (p : Pending)
    (hne : (trimStr body).isEmpty = false)
    (hcmd : ¬ isCommand (lowerStr (trimStr body)))
    (hp : pend frm = some p)
    (hw : p.waiting_for = "custom_category")
    (hlen : 2 ≤ (trimStr (trimStr body)).length) :
    (webhookStep ⟨pdf, ccats, pef, sd, nw, spf, sv, ar⟩ body frm pend).events =
      [.callSaveCustom (trimStr (trimStr body)),
       .composeReply (addingMsg (p.date.getD "") (p.amount.getD "") (p.description.getD "")
         (trimStr (trimStr body))),
       .dispatchAppend (p.date.getD "") (p.amount.getD "") (p.description.getD "")
         (trimStr (trimStr body))] ∧
    (webhookStep ⟨pdf, ccats, pef, sd, nw, spf, sv, ar⟩ body frm pend).pending frm = none ∧
    (∀ sv2 ar2 : Bool,
      webhookStep ⟨pdf, ccats, pef, sd, nw, spf, sv, ar⟩ body frm pend =
        webhookStep ⟨pdf, ccats, pef, sd, nw, spf, sv2, ar2⟩ body frm pend) := by
  unfold isCommand at hcmd
  push_neg at hcmd
  obtain ⟨h1, h2, h3, h4, h5, h6, h7⟩ := hcmd
  have hee : (trimStr (trimStr body)).isEmpty = false := isEmpty_false_of_two_le hlen
  have hlt : ¬ (trimStr (trimStr body)).length < 2 := by omega
  have hstep : webhookStep ⟨pdf, ccats, pef, sd, nw, spf, sv, ar⟩ body frm pend =
      ⟨addingMsg (p.date.getD "") (p.amount.getD "") (p.description.getD "")
          (trimStr (trimStr body)),
        fun s => if s = frm then none else pend s,
        [.callSaveCustom (trimStr (trimStr body)),
         .composeReply (addingMsg (p.date.getD "") (p.amount.getD "") (p.description.getD "")
           (trimStr (trimStr body))),
         .dispatchAppend (p.date.getD "") (p.amount.getD "") (p.description.getD "")
           (trimStr (trimStr body))]⟩ := by
    unfold webhookStep dispatchPending
    simp [hne, h1, h2, h3, h4, h5, h6, h7, hp, hw, hee, hlt]
  refine ⟨by rw [hstep], by rw [hstep]; simp, fun sv2 ar2 => rfl⟩

/-- Claim C8 witness: the name `Transport` completes the session and is
registered, with the register result ignored. -/
theorem C8_register_result_ignored_witness :
    (webhookStep ⟨fun _ => none, [], fun _ => none, none, ⟨0, 0, 1, 2025⟩, fun _ => none,
        false, false⟩ " Transport " "u"
      (fun s => if s = "u" then
        some ⟨some "10-10-2025", some "450", some "misc items", none, "custom_category"⟩
        else none)).events =
      [.callSaveCustom "Transport",
       .composeReply (addingMsg "10-10-2025" "450" "misc items" "Transport"),
       .dispatchAppend "10-10-2025" "450" "misc items" "Transport"] :=
  (C8_register_result_ignored (fun _ => none) [] (fun _ => none) none ⟨0, 0, 1, 2025⟩
    (fun _ => none) false false " Transport " "u" _
    ⟨some "10-10-2025", some "450", some "misc items", none, "custom_category"⟩
    (by decide) (by decide) (by decide) (by decide) (by decide)).1

/-- The shape every stored session entry keeps: a recognised
`waiting_for` discriminator and present amount and description keys.
Uniqueness per sender is structural: the store is a map from sender
identifier to at most one optional entry. -/
def GoodPending (p : Pending) : Prop :=
  (p.waiting_for = "date" ∨ p.waiting_for = "category" ∨ p.waiting_for = "custom_category") ∧
  p.amount.isSome = true ∧ p.description.isSome = true

instance (p : Pending) : Decidable (GoodPending p) := by
  unfold GoodPending
  infer_instance

theorem parseNew_invariant (env : Env) (incoming frm : String)
    (pend : String → Option Pending)
    (hinv : ∀ s q, pend s = some q → GoodPending q) :
    ∀ s q, (parseNewExpense env incoming frm pend).pending s = some q → GoodPending q := by
  intro s q h
  unfold parseNewExpense at h
  repeat' (first
    | (exact hinv s q h)
    | (exact Option.noConfusion h)
    | (split at h)
    | (simp only [] at h))
  all_goals obtain rfl := Option.some.inj h
  all_goals exact ⟨by simp, by simp_all [Option.isSome_iff_ne_none],
    by simp_all [Option.isSome_iff_ne_none]⟩

theorem dispatchPending_invariant (env : Env) (incoming frm : String)
    (pend : String → Option Pending) (p : Pending)
    (hinv : ∀ s q, pend s = some q → GoodPending q) (hgp : GoodPending p) :
    ∀ s q, (dispatchPending env incoming frm pend p).pending s = some q → GoodPending q := by
  intro s q h
  unfold dispatchPending at h
  repeat' (first
    | (exact hinv s q h)
    | (exact Option.noConfusion h)
    | (exact parseNew_invariant env incoming frm pend hinv s q h)
    | (split at h)
    | (simp only [] at h))
  all_goals obtain rfl := Option.some.inj h
  all_goals exact ⟨by simp, by simpa using hgp.2.1, by simpa using hgp.2.2⟩

set_option maxHeartbeats 800000 in
/-- Claim C9 (confirmed): every branch of the handler preserves the store
invariant — each stored entry has `waiting_for` among `date`, `category`,
`custom_category` and carries an amount and a description; since the
store maps each sender to at most one optional entry, a sender never has
two pending expenses. -/
theorem C9_store_invariant_preserved (env : Env) (body frm : String)
    (pend : String → Option Pending)
    (hinv : ∀ s q, pend s = some q → GoodPending q) :
    ∀ s q, (webhookStep env body frm pend).pending s = some q → GoodPending q := by
  intro s q h
  rcases hpf : pend frm with _ | p
  · unfold webhookStep at h
    simp only [hpf] at h
    repeat' (first
      | (exact hinv s q h)
      | (exact Option.noConfusion h)
      | (exact parseNew_invariant env (trimStr body) frm pend hinv s q h)
      | (split at h))
  · have hgp := hinv frm p hpf
    unfold webhookStep at h
    simp only [hpf] at h
    repeat' (first
      | (exact hinv s q h)
      | (exact Option.noConfusion h)
      | (exact dispatchPending_invariant env (trimStr body) frm pend p hinv hgp s q h)
      | (split at h)
      | (simp only [] at h))

/-- Claim C9 witness: a freshly opened `AwaitingDate` session satisfies
the invariant. -/
theorem C9_store_invariant_preserved_witness :
    GoodPending ⟨none, some "3000", some "cement", some "uncertain", "date"⟩ :=
  C9_store_invariant_preserved
    ⟨fun _ => none, [],
      fun _ => some ⟨some "missing", some "3000", some "cement", some "uncertain"⟩,
      none, ⟨0, 0, 1, 2025⟩, fun _ => none, true, true⟩
    "Cement bags 3000" "u" (fun _ => none)
    (fun s q hq => by simp at hq)
    "u" ⟨none, some "3000", some "cement", some "uncertain", "date"⟩ (by decide)

/-- Scans an action trace and checks that every background-append
dispatch is preceded by the composition of the given reply body; the
accumulator records whether that composition has already happened. -/
def composedBefore (reply : String) : List Event → Bool → Bool
  | [], _ => true
  | Event.composeReply b :: t, seen => composedBefore reply t (seen || (b == reply))
  | Event.dispatchAppend _ _ _ _ :: t, seen => seen && composedBefore reply t seen
  | Event.callSaveCustom _ :: t, seen => composedBefore reply t seen

theorem composedBefore_parseNew (env : Env) (incoming frm : String)
    (pend : String → Option Pending) :
    composedBefore (parseNewExpense env incoming frm pend).reply
      (parseNewExpense env incoming frm pend).events false = true := by
  unfold parseNewExpense
  repeat' split
  all_goals simp [composedBefore]

theorem composedBefore_dispatchPending (env : Env) (incoming frm : String)
    (pend : String → Option Pending) (p : Pending) :
    composedBefore (dispatchPending env incoming frm pend p).reply
      (dispatchPending env incoming frm pend p).events false = true := by
  unfold dispatchPending
  repeat' split
  all_goals try exact composedBefore_parseNew env incoming frm pend
  all_goals try (
    by_cases hb : pyTruthy (env.parseDate incoming) = true <;> simp [hb, composedBefore])
  all_goals (
    by_cases hb2 : (trimStr incoming).isEmpty = true ∨ (trimStr incoming).length < 2 <;>
      simp [hb2, composedBefore])

/-- Claim C7 (confirmed): on every path of the handler — in particular on
all four completion paths — the confirmation reply body is composed
before the background append is dispatched (the trace scan finds a
`composeReply` of the returned reply ahead of every `dispatchAppend`),
and the step result is literally independent of the booleans returned by
`save_custom_category` and by the background `add_expense_to_sheet`,
whose outcomes the handler never reads. -/
theorem C7_reply_composed_before_append (pdf : String → Option String)
    (ccats : List String) (pef : String → Option Parsed) (sd : Option (List Row))
    (nw : PyNow) (spf : String → Option PyDate) (sv ar sv2 ar2 : Bool)
    (body frm : String) (pend : String → Option Pending) :
    composedBefore (webhookStep ⟨pdf, ccats, pef, sd, nw, spf, sv, ar⟩ body frm pend).reply
      (webhookStep ⟨pdf, ccats, pef, sd, nw, spf, sv, ar⟩ body frm pend).events false = true ∧
    webhookStep ⟨pdf, ccats, pef, sd, nw, spf, sv, ar⟩ body frm pend =
      webhookStep ⟨pdf, ccats, pef, sd, nw, spf, sv2, ar2⟩ body frm pend := by
  constructor
  · unfold webhookStep
    rcases hpf : pend frm with _ | p <;>
      simp only [hpf] <;>
      by_cases h1 : (trimStr body).isEmpty = true <;>
      by_cases h2 : lowerStr (trimStr body) = "cancel" ∨ lowerStr (trimStr body) = "reset" <;>
      by_cases h3 : lowerStr (trimStr body) = "today" ∨ lowerStr (trimStr body) = "week" ∨
        lowerStr (trimStr body) = "month" <;>
      by_cases h4 : lowerStr (trimStr body) = "last" ∨ lowerStr (trimStr body) = "last expense" <;>
      simp [h1, h2, h3, h4, composedBefore]
    all_goals try exact composedBefore_dispatchPending _ _ _ _ _
    all_goals try exact composedBefore_parseNew _ _ _ _
  · rfl

/-- Well-formedness of a custom-category snapshot, under which the
claimed menu arithmetic is meaningful: lowercased names are pairwise
distinct, collide with no key of the base dict literal, are not decimal
numerals that could shadow a menu position, and are non-empty. -/
def WFCustom (custom : List String) : Prop :=
  (custom.map lowerStr).Nodup ∧
  (∀ c ∈ custom, baseCategoryMap (lowerStr c) = none) ∧
  (∀ c ∈ custom, ∀ m, m < 5 + custom.length → lowerStr c ≠ natStr m) ∧
  (∀ c ∈ custom, c.isEmpty = false)

instance (custom : List String) : Decidable (WFCustom custom) := by
  unfold WFCustom
  infer_instance

/-- The acceptance set asserted by claim C4, word for word: the input
matches a numeric menu position or a listed category name
case-insensitively.  Used only to exhibit the counterexample. -/
def specIsPosOrName (custom : List String) (input : String) : Bool :=
  let k := lowerStr (trimStr input)
  let cats := STANDARD_CATEGORIES ++ custom
  ((List.range cats.length).any (fun j => k == natStr (j+1))) ||
    (cats.any (fun name => k == lowerStr name))

/-- Claim C4 counterexample: the input `material` matches neither a
numeric position nor a listed name, yet the resolver maps it to
`Material Purchase` instead of being unresolvable; and for the snapshot
whose only custom category is named `2`, the numeric input `2` resolves
to that custom name rather than to `Labour`, the second entry of the
concatenated list. -/
theorem C4_counterexample :
    (specIsPosOrName [] "material" = false ∧
      resolveCategory [] "material" = some "Material Purchase") ∧
    (resolveCategory ["2"] "2" = some "2" ∧
      (STANDARD_CATEGORIES ++ ["2"]).getD 1 "" = "Labour" ∧
      ("2" : String) ≠ "Labour") := by decide

/-- Claim C4 as amended (proved): for a well-formed snapshot of custom
categories, numeric input N resolves to the Nth entry of the
concatenated fixed-then-custom list, a case-insensitive exact name match
resolves to the listed name, the shorthand `material` additionally
resolves to `Material Purchase`, and input matching no position, no name
and no shorthand is unresolvable. -/
theorem C4_resolver_behaviour (custom : List String) (h : WFCustom custom) :
    (∀ j, ∀ _hj : j < (STANDARD_CATEGORIES ++ custom).length, ∀ input : String,
      lowerStr (trimStr input) = natStr (j+1) →
      resolveCategory custom input = some ((STANDARD_CATEGORIES ++ custom).getD j "")) ∧
    (∀ name ∈ STANDARD_CATEGORIES ++ custom, ∀ input : String,
      lowerStr (trimStr input) = lowerStr name →
      resolveCategory custom input = some name) ∧
    (resolveCategory custom "material" = some "Material Purchase") ∧
    (∀ input : String,
      (∀ j, j < (STANDARD_CATEGORIES ++ custom).length →
        lowerStr (trimStr input) ≠ natStr (j+1)) →
      (∀ name ∈ STANDARD_CATEGORIES ++ custom,
        lowerStr (trimStr input) ≠ lowerStr name) →
      lowerStr (trimStr input) ≠ "material" →
      resolveCategory custom input = none) := by
  obtain ⟨hnd, hbase, hnum, hne⟩ := h
  refine ⟨?_, ?_, ?_, ?_⟩
  · -- numeric positions
    intro j hj input hkey
    have hjl : j < 4 + custom.length := by
      simp [STANDARD_CATEGORIES] at hj
      omega
    unfold resolveCategory
    rw [hkey]
    by_cases hj4 : j < 4
    · have huntouched : categoryMap custom (natStr (j+1)) = baseCategoryMap (natStr (j+1)) :=
        addCustomEntries_untouched custom _ 5 _
          (fun j' _ heq => by have := natStr_inj heq; omega)
          (fun c hc heq => hnum c hc (j+1) (by omega) heq.symm)
      rw [huntouched]
      interval_cases j
      · rw [(by decide : baseCategoryMap (natStr (0+1)) = some "Cable")]
        rfl
      · rw [(by decide : baseCategoryMap (natStr (1+1)) = some "Labour")]
        rfl
      · rw [(by decide : baseCategoryMap (natStr (2+1)) = some "Material Purchase")]
        rfl
      · rw [(by decide : baseCategoryMap (natStr (3+1)) = some "Fuel")]
        rfl
    · have hlen2 : j - 4 < custom.length := by omega
      have h5 : 5 + (j - 4) = j + 1 := by omega
      have hp := addCustomEntries_pos custom baseCategoryMap 5 (j-4) hlen2
        (fun c hc => by
          rw [h5]
          exact hnum c hc (j+1) (by omega))
      have hcm : categoryMap custom (natStr (j+1)) = some (custom.get ⟨j-4, hlen2⟩) := by
        unfold categoryMap
        rw [← h5]
        exact hp
      have hnem : (custom.get ⟨j-4, hlen2⟩).isEmpty = false := hne _ (List.get_mem _ _ _)
      have hgd : (STANDARD_CATEGORIES ++ custom).getD j "" = custom.get ⟨j-4, hlen2⟩ := by
        rw [List.getD_eq_getElem?_getD, List.getElem?_eq_getElem hj]
        simp only [Option.getD_some]
        rw [List.getElem_append_right (by simp [STANDARD_CATEGORIES]; omega)]
        simp [STANDARD_CATEGORIES, List.get_eq_getElem]
      rw [hcm, hgd]
      show (if (custom.get ⟨j-4, hlen2⟩).isEmpty = true then none
        else some (custom.get ⟨j-4, hlen2⟩)) = some (custom.get ⟨j-4, hlen2⟩)
      rw [hnem]
      simp
  · -- case-insensitive exact name match
    intro name hmem input hkey
    unfold resolveCategory
    rw [hkey]
    rcases List.mem_append.mp hmem with hfix | hcust
    · have hfour : name = "Cable" ∨ name = "Labour" ∨ name = "Material Purchase" ∨
          name = "Fuel" := by
        simpa [STANDARD_CATEGORIES] using hfix
      have hbody : ∀ (k : String) (c0 : Char), c0 ∈ k.data →
          ¬ (48 ≤ c0.toNat ∧ c0.toNat ≤ 57) → baseCategoryMap k ≠ none →
          categoryMap custom k = baseCategoryMap k := by
        intro k c0 hc0 hnd0 hbne
        exact addCustomEntries_untouched custom _ 5 _
          (fun j' _ => ne_natStr_of_nonDigit hc0 hnd0 (5 + j'))
          (fun c hc heq => hbne (by rw [heq]; exact hbase c hc))
      rcases hfour with rfl | rfl | rfl | rfl
      · rw [hbody (lowerStr "Cable") 'c' (by decide) (by decide) (by decide)]
        decide
      · rw [hbody (lowerStr "Labour") 'l' (by decide) (by decide) (by decide)]
        decide
      · rw [hbody (lowerStr "Material Purchase") 'm' (by decide) (by decide) (by decide)]
        decide
      · rw [hbody (lowerStr "Fuel") 'f' (by decide) (by decide) (by decide)]
        decide
    · have hcm : categoryMap custom (lowerStr name) = some name :=
        addCustomEntries_name custom baseCategoryMap 5 name hcust hnd
          (fun j hjl => hnum name hcust (5+j) (by omega))
      rw [hcm]
      show (if name.isEmpty = true then none else some name) = some name
      rw [hne name hcust]
      simp
  · -- the `material` shorthand
    unfold resolveCategory
    have hkey : lowerStr (trimStr "material") = "material" := by decide
    rw [hkey]
    have huntouched : categoryMap custom "material" = baseCategoryMap "material" :=
      addCustomEntries_untouched custom _ 5 _
        (fun j' _ => ne_natStr_of_nonDigit (c := 'm')
          (by decide) (by decide) (5 + j'))
        (fun c hc heq => by
          have := hbase c hc
          rw [← heq] at this
          exact absurd this (by decide))
    rw [huntouched]
    decide
  · -- everything else is unresolvable
    intro input hposn hname hmat
    have hlen4 : 4 ≤ (STANDARD_CATEGORIES ++ custom).length := by
      simp [STANDARD_CATEGORIES]
    have hp1 : lowerStr (trimStr input) ≠ "1" := by
      have := hposn 0 (by omega)
      rwa [(by decide : natStr (0+1) = "1")] at this
    have hp2 : lowerStr (trimStr input) ≠ "2" := by
      have := hposn 1 (by omega)
      rwa [(by decide : natStr (1+1) = "2")] at this
    have hp3 : lowerStr (trimStr input) ≠ "3" := by
      have := hposn 2 (by omega)
      rwa [(by decide : natStr (2+1) = "3")] at this
    have hp4 : lowerStr (trimStr input) ≠ "4" := by
      have := hposn 3 (by omega)
      rwa [(by decide : natStr (3+1) = "4")] at this
    have hc1 : lowerStr (trimStr input) ≠ "cable" := by
      have := hname "Cable" (by simp [STANDARD_CATEGORIES])
      rwa [(by decide : lowerStr "Cable" = "cable")] at this
    have hc2 : lowerStr (trimStr input) ≠ "labour" := by
      have := hname "Labour" (by simp [STANDARD_CATEGORIES])
      rwa [(by decide : lowerStr "Labour" = "labour")] at this
    have hc3 : lowerStr (trimStr input) ≠ "material purchase" := by
      have := hname "Material Purchase" (by simp [STANDARD_CATEGORIES])
      rwa [(by decide : lowerStr "Material Purchase" = "material purchase")] at this
    have hc4 : lowerStr (trimStr input) ≠ "fuel" := by
      have := hname "Fuel" (by simp [STANDARD_CATEGORIES])
      rwa [(by decide : lowerStr "Fuel" = "fuel")] at this
    have hbk : baseCategoryMap (lowerStr (trimStr input)) = none := by
      unfold baseCategoryMap
      rw [if_neg hp1, if_neg hp2, if_neg hp3, if_neg hp4, if_neg hc1, if_neg hc2,
        if_neg hmat, if_neg hc3, if_neg hc4]
    have huntouched : categoryMap custom (lowerStr (trimStr input)) =
        baseCategoryMap (lowerStr (trimStr input)) :=
      addCustomEntries_untouched custom _ 5 _
        (fun j' hj' => by
          have := hposn (4 + j') (by simp [STANDARD_CATEGORIES]; omega)
          rwa [(by omega : 4 + j' + 1 = 5 + j')] at this)
        (fun c hc => hname c (List.mem_append_right _ hc))
    unfold resolveCategory
    rw [huntouched, hbk]

/-- Claim C4 witness: concrete resolutions on the snapshot
`[Food, Transport]` — position 6 gives `Transport`, the case-insensitive
name ` FOOD ` gives `Food`, `material` gives `Material Purchase`, and
`xyz` is unresolvable. -/
theorem C4_resolver_behaviour_witness :
    resolveCategory ["Food", "Transport"] "6" = some "Transport" ∧
    resolveCategory ["Food", "Transport"] " FOOD " = some "Food" ∧
    resolveCategory ["Food", "Transport"] "material" = some "Material Purchase" ∧
    resolveCategory ["Food", "Transport"] "xyz" = none := by
  obtain ⟨hpos, hname, hmat, hun⟩ := C4_resolver_behaviour ["Food", "Transport"] (by decide)
  exact ⟨by
      have := hpos 5 (by decide) "6" (by decide)
      simpa using this,
    hname "Food" (by decide) " FOOD " (by decide),
    hmat,
    hun "xyz" (by decide) (by decide) (by decide)⟩

end ExpenseTracker
